import Mathlib

/-!
Shallow embedding of the repository's two-level hash table
(`src/double_key_table.py`, class `DoubleKeyTable`) together with a model of
the inner `LinearProbeTable` (imported by the source from
`data_structures.hash_table`, whose code is not part of this repository
snapshot; it is modelled from the specification, section 4.1
"OpenAddressingStore").

Keys are ordered sequences of symbol codes (`List Nat`), matching the
source's use of `ord(char)` over strings.  Python exceptions are modelled by
the `Err` type; every stateful operation of the outer table returns the
post-state together with an `Except Err` result, because Python mutates the
object in place even when an exception propagates.  Python's `int` is
modelled by `Int` where subtraction occurs (the occupied counts).
-/

namespace MountainTrail

/-- Python exception kinds observable from the table code: `KeyError`,
`FullError` (the course library's capacity-exhausted error),
`ZeroDivisionError`, `TypeError` (subscripting `None`), and `IndexError`
(array or list index out of range). -/
inductive Err where
  | keyError
  | fullError
  | zeroDivisionError
  | typeError
  | indexError
deriving DecidableEq, Repr

/-- A key is the ordered sequence of its symbol codes. -/
abbrev Key := List Nat

/-- The class constant `HASH_BASE = 31` of `DoubleKeyTable`. -/
def HASH_BASE : Nat := 31

/-- One symbol step of the rolling hash of `hash1`/`hash2`
(`src/double_key_table.py` lines 78-83):
`value = (ord(char) + a*value) % cap` followed by
`a = a * HASH_BASE % (cap - 1)`.  In Python `% 0` raises
`ZeroDivisionError`: the value update divides by zero when `cap = 0`, and
the multiplier update divides by zero when `cap = 1`. -/
def rollHashStep (cap : Nat) (st : Nat × Nat) (c : Nat) : Except Err (Nat × Nat) :=
  if cap = 0 then .error .zeroDivisionError
  else if cap = 1 then .error .zeroDivisionError
  else .ok ((c + st.2 * st.1) % cap, st.2 * HASH_BASE % (cap - 1))

/-- The rolling hash over a whole key, accumulator seeded with
`value = 0`, `a = 31415` (`src/double_key_table.py` lines 78-79). -/
def rollHash (cap : Nat) (key : Key) : Except Err Nat :=
  (key.foldlM (rollHashStep cap) (0, 31415)).map (fun st => st.1)

/-- Modelled from the spec: the inner single-key open-addressing store
(`LinearProbeTable` from `data_structures.hash_table`, not present in this
repository snapshot); spec section 4.1 "OpenAddressingStore": an array of
slots, an occupied count and a size-index cursor into the capacity
schedule. -/
structure LinearProbeTable (V : Type) where
  sizes : List Nat
  size_index : Nat
  array : List (Option (Key × V))
  count : Int
deriving DecidableEq, Repr

namespace LinearProbeTable

variable {V : Type}

/-- Modelled from the spec: current capacity of the inner store. -/
def table_size (t : LinearProbeTable V) : Nat := t.array.length

/-- Modelled from the spec: the probe scan of section 4.1, starting at a
given position with a given number of remaining probe steps.  An empty slot
stops the scan (claimed on insert, `KeyError` on lookup); a slot whose key
equals the probed key is returned; otherwise the scan advances one slot
with wraparound.  Exhausting the scan yields `FullError` on insert and
`KeyError` on lookup.  (The source overrides the inner store's `hash` with
`hash2`, which is the same rolling hash at the inner capacity.) -/
def probeAux (t : LinearProbeTable V) (k : Key) (isInsert : Bool) :
    Nat → Nat → Except Err Nat
  | 0, _ => .error (if isInsert then .fullError else .keyError)
  | fuel+1, pos =>
    match t.array.get? pos with
    | none => .error .indexError
    | some none => if isInsert then .ok pos else .error .keyError
    | some (some (k', _)) =>
      if k' = k then .ok pos
      else t.probeAux k isInsert fuel ((pos + 1) % t.table_size)

/-- Modelled from the spec: `probe(key, for_insert)` of section 4.1 — scan
from `hash(key)` across at most `capacity` slots. -/
def probe (t : LinearProbeTable V) (k : Key) (isInsert : Bool) : Except Err Nat :=
  match rollHash t.table_size k with
  | .error e => .error e
  | .ok pos => t.probeAux k isInsert t.table_size pos

/-- Modelled from the spec: lookup of a key in the inner store. -/
def get (t : LinearProbeTable V) (k : Key) : Except Err V :=
  match t.probe k false with
  | .error e => .error e
  | .ok pos =>
    match t.array.get? pos with
    | some (some (_, v)) => .ok v
    | _ => .error .keyError

/-- Modelled from the spec: the mutation part of `set` — probe for insert,
overwrite in place on a key match, claim an empty slot (incrementing the
occupied count) otherwise. -/
def insertAt (t : LinearProbeTable V) (k : Key) (v : V) :
    Except Err (LinearProbeTable V) :=
  match t.probe k true with
  | .error e => .error e
  | .ok pos =>
    match t.array.get? pos with
    | some none =>
      .ok { t with array := t.array.set pos (some (k, v)), count := t.count + 1 }
    | some (some _) => .ok { t with array := t.array.set pos (some (k, v)) }
    | none => .error .indexError

/-- Modelled from the spec: `grow()` of section 4.1 — advance the
size-index (a no-op once the schedule is exhausted), allocate the new
array, reset the count and re-insert every occupied pair with full probing
at the new capacity. -/
def grow (t : LinearProbeTable V) : Except Err (LinearProbeTable V) :=
  if h : t.size_index + 1 < t.sizes.length then
    t.array.foldlM
      (fun acc slot =>
        match slot with
        | none => .ok acc
        | some (k, v) => acc.insertAt k v)
      { sizes := t.sizes, size_index := t.size_index + 1,
        array := List.replicate (t.sizes.get ⟨t.size_index + 1, h⟩) none,
        count := 0 }
  else .ok t

/-- Modelled from the spec: `set(key, value)` — insert or overwrite, then
grow when the occupied count exceeds half the capacity. -/
def set (t : LinearProbeTable V) (k : Key) (v : V) :
    Except Err (LinearProbeTable V) :=
  match t.insertAt k v with
  | .error e => .error e
  | .ok t' => if 2 * t'.count > (t'.table_size : Int) then t'.grow else .ok t'

/-- Modelled from the spec: `delete(key)` — probe for lookup, physically
clear the slot (no tombstone) and decrement the occupied count. -/
def delete (t : LinearProbeTable V) (k : Key) :
    Except Err (LinearProbeTable V) :=
  match t.probe k false with
  | .error e => .error e
  | .ok pos => .ok { t with array := t.array.set pos none, count := t.count - 1 }

/-- Modelled from the spec: the element count of the inner store (Python
`len` on a `LinearProbeTable`). -/
def len (t : LinearProbeTable V) : Int := t.count

/-- Modelled from the spec: `keys()` of the inner store, in array-slot
order. -/
def keys (t : LinearProbeTable V) : List Key :=
  t.array.filterMap (fun s => s.map Prod.fst)

/-- Modelled from the spec: `values()` of the inner store, in array-slot
order. -/
def values (t : LinearProbeTable V) : List V :=
  t.array.filterMap (fun s => s.map Prod.snd)

end LinearProbeTable

/-- Modelled from the spec: constructing a fresh inner store from a
capacity schedule (`LinearProbeTable(self.INTERNAL_TABLE_SIZES)` in the
source); the initial capacity is the schedule's first entry. -/
def mkLPT (V : Type) (sizes : List Nat) : Except Err (LinearProbeTable V) :=
  match sizes.get? 0 with
  | none => .error .indexError
  | some cap =>
    .ok { sizes := sizes, size_index := 0,
          array := List.replicate cap none, count := 0 }

/-- Modelled from the spec: the fresh empty inner store produced by
`LinearProbeTable(sizes)` for a schedule headed by `cap` — the state
`mkLPT` returns on a non-empty schedule. -/
def freshInner (V : Type) (cap : Nat) (rest : List Nat) : LinearProbeTable V :=
  { sizes := cap :: rest, size_index := 0,
    array := List.replicate cap none, count := 0 }

/-- The class constant `TABLE_SIZES` of `DoubleKeyTable`
(`src/double_key_table.py` line 25). -/
def TABLE_SIZES_DEFAULT : List Nat :=
  [5, 13, 29, 53, 97, 193, 389, 769, 1543, 3079, 6151, 12289, 24593, 49157,
   98317, 196613, 393241, 786433, 1572869]

/-- The outer table of `src/double_key_table.py`: the instance attributes
`TABLE_SIZES`, `INTERNAL_TABLE_SIZES`, `count`, `size_index` and `array`
set up by `__init__`. -/
structure DoubleKeyTable (V : Type) where
  TABLE_SIZES : List Nat
  INTERNAL_TABLE_SIZES : List Nat
  count : Int
  size_index : Nat
  array : List (Option (Key × LinearProbeTable V))
deriving DecidableEq, Repr

namespace DoubleKeyTable

variable {V : Type}

/-- The `table_size` property (`src/double_key_table.py` lines 383-393):
the length of the current outer array. -/
def table_size (t : DoubleKeyTable V) : Nat := t.array.length

/-- `hash1` (`src/double_key_table.py` lines 72-83): the rolling hash of
the first key at the current outer capacity. -/
def hash1 (t : DoubleKeyTable V) (k : Key) : Except Err Nat :=
  rollHash t.table_size k

/-- `hash2` (`src/double_key_table.py` lines 85-96): the rolling hash of
the second key at the given sub-table's capacity. -/
def hash2 (t : DoubleKeyTable V) (k : Key) (sub : LinearProbeTable V) :
    Except Err Nat :=
  rollHash sub.table_size k

/-- The body of the `while probe_count < self.TABLE_SIZES[self.size_index]`
loop of `_linear_probe` (`src/double_key_table.py` lines 147-163), with the
remaining loop iterations as fuel.  On an empty slot with `is_insert` the
source allocates a fresh inner table, writes `(key1, table)` into the slot
and increments `count` before computing `hash2` of the second key (so that
mutation survives a `hash2` crash); on a key match it delegates to the
inner probe; otherwise it advances one slot with wraparound.  An exhausted
loop yields `FullError` on insert and `KeyError` otherwise (lines
165-168). -/
def probeAux (k1 k2 : Key) (isInsert : Bool) :
    Nat → DoubleKeyTable V → Nat → DoubleKeyTable V × Except Err (Nat × Nat)
  | 0, t, _ => (t, .error (if isInsert then .fullError else .keyError))
  | fuel+1, t, pos1 =>
    match t.array.get? pos1 with
    | none => (t, .error .indexError)
    | some none =>
      if isInsert then
        match mkLPT V t.INTERNAL_TABLE_SIZES with
        | .error e => (t, .error e)
        | .ok inner =>
          let t' := { t with array := t.array.set pos1 (some (k1, inner)),
                             count := t.count + 1 }
          match t'.hash2 k2 inner with
          | .error e => (t', .error e)
          | .ok pos2 => (t', .ok (pos1, pos2))
      else (t, .error .keyError)
    | some (some (k, inner)) =>
      if k = k1 then
        match inner.probe k2 isInsert with
        | .error e => (t, .error e)
        | .ok pos2 => (t, .ok (pos1, pos2))
      else
        probeAux k1 k2 isInsert fuel t ((pos1 + 1) % t.table_size)

/-- `_linear_probe` (`src/double_key_table.py` lines 98-168): hash the
first key, then run the probe loop bounded by
`TABLE_SIZES[size_index]` iterations starting at that position. -/
def linear_probe (t : DoubleKeyTable V) (k1 k2 : Key) (isInsert : Bool) :
    DoubleKeyTable V × Except Err (Nat × Nat) :=
  match t.hash1 k1 with
  | .error e => (t, .error e)
  | .ok pos1 =>
    match t.TABLE_SIZES.get? t.size_index with
    | none => (t, .error .indexError)
    | some bound => probeAux k1 k2 isInsert bound t pos1

/-- `__getitem__` (`src/double_key_table.py` lines 294-314): probe with
`is_insert=True` (so a missing first key allocates a slot), then read the
second key from the inner store; the source returns `None` implicitly when
the probed slot is empty, modelled by `Option V`. -/
def getItem (t : DoubleKeyTable V) (k1 k2 : Key) :
    DoubleKeyTable V × Except Err (Option V) :=
  match t.linear_probe k1 k2 true with
  | (t', .error e) => (t', .error e)
  | (t', .ok (p1, _)) =>
    match t'.array.get? p1 with
    | some (some (_, inner)) =>
      match inner.get k2 with
      | .error e => (t', .error e)
      | .ok v => (t', .ok (some v))
    | some none => (t', .ok none)
    | none => (t', .error .indexError)

/-- The reinsertion loop of `_rehash` (`src/double_key_table.py` lines
377-381): for every occupied slot of the old array, compute `hash1` at the
new capacity and assign the slot directly — without probing and without
incrementing `count`. -/
def rehashLoop :
    List (Option (Key × LinearProbeTable V)) → DoubleKeyTable V →
    DoubleKeyTable V × Except Err Unit
  | [], t => (t, .ok ())
  | none :: rest, t => rehashLoop rest t
  | some (k, inner) :: rest, t =>
    match t.hash1 k with
    | .error e => (t, .error e)
    | .ok pos => rehashLoop rest { t with array := t.array.set pos (some (k, inner)) }

/-- `_rehash` (`src/double_key_table.py` lines 358-381): increment
`size_index` (leaving the table otherwise untouched when the schedule is
exactly exhausted), allocate the new array, reset `count` to zero and run
the direct-assignment reinsertion loop. -/
def rehash (t : DoubleKeyTable V) : DoubleKeyTable V × Except Err Unit :=
  let t1 := { t with size_index := t.size_index + 1 }
  if t1.size_index = t1.TABLE_SIZES.length then (t1, .ok ())
  else
    match t1.TABLE_SIZES.get? t1.size_index with
    | none => (t1, .error .indexError)
    | some cap =>
      rehashLoop t.array { t1 with array := List.replicate cap none, count := 0 }

/-- `__setitem__` (`src/double_key_table.py` lines 316-331): probe for
insert, write the value through the inner store, then rehash when
`count > table_size / 2`. -/
def setItem (t : DoubleKeyTable V) (k1 k2 : Key) (v : V) :
    DoubleKeyTable V × Except Err Unit :=
  match t.linear_probe k1 k2 true with
  | (t', .error e) => (t', .error e)
  | (t', .ok (p1, _)) =>
    match t'.array.get? p1 with
    | some (some (k, inner)) =>
      match inner.set k2 v with
      | .error e => (t', .error e)
      | .ok inner' =>
        let t2 := { t' with array := t'.array.set p1 (some (k, inner')) }
        if 2 * t2.count > (t2.table_size : Int) then t2.rehash else (t2, .ok ())
    | some none => (t', .error .typeError)
    | none => (t', .error .indexError)

/-- `__delitem__` (`src/double_key_table.py` lines 333-356): probe for
lookup, delete the second key from the inner store, and when the inner
store becomes empty clear the outer slot and decrement `count`.  The
source's `try`/`except` re-raises `KeyError` as `KeyError`, leaving the
observable error unchanged. -/
def delItem (t : DoubleKeyTable V) (k1 k2 : Key) :
    DoubleKeyTable V × Except Err Unit :=
  match t.linear_probe k1 k2 false with
  | (t', .error e) => (t', .error e)
  | (t', .ok (p1, _)) =>
    match t'.array.get? p1 with
    | some (some (k, inner)) =>
      match inner.delete k2 with
      | .error e => (t', .error e)
      | .ok inner' =>
        if inner'.count = 0 then
          ({ t' with array := t'.array.set p1 none, count := t'.count - 1 }, .ok ())
        else
          ({ t' with array := t'.array.set p1 (some (k, inner')) }, .ok ())
    | some none => (t', .error .typeError)
    | none => (t', .error .indexError)

/-- `contains` / `__contains__` (`src/double_key_table.py` lines 273-292):
run `__getitem__`, report `False` on `KeyError` and `True` otherwise; any
other exception propagates, and the mutation performed by `__getitem__`
persists either way. -/
def containsPair (t : DoubleKeyTable V) (k1 k2 : Key) :
    DoubleKeyTable V × Except Err Bool :=
  match t.getItem k1 k2 with
  | (t', .error .keyError) => (t', .ok false)
  | (t', .error e) => (t', .error e)
  | (t', .ok _) => (t', .ok true)

/-- `keys(None)` (`src/double_key_table.py` lines 206-211): the first
component of every occupied outer slot, in slot order. -/
def keysAll (t : DoubleKeyTable V) : List Key :=
  t.array.filterMap (fun s => s.map Prod.fst)

/-- The scan of `keys(k)` for a present key argument
(`src/double_key_table.py` lines 213-218): `table_size` loop iterations;
each iteration subscripts `self.array[position][0]`, which raises
`TypeError` when the slot holds `None`; falling off the loop returns
Python `None`, modelled as `Option`. -/
def keysScopedAux (t : DoubleKeyTable V) (k : Key) :
    Nat → Nat → Except Err (Option (List Key))
  | 0, _ => .ok none
  | fuel+1, pos =>
    match t.array.get? pos with
    | none => .error .indexError
    | some none => .error .typeError
    | some (some (k', inner)) =>
      if k' = k then .ok (some inner.keys)
      else t.keysScopedAux k fuel ((pos + 1) % t.table_size)

/-- `keys(k)` with a key argument (`src/double_key_table.py` lines
212-218). -/
def keysScoped (t : DoubleKeyTable V) (k : Key) : Except Err (Option (List Key)) :=
  match t.hash1 k with
  | .error e => .error e
  | .ok pos => t.keysScopedAux k t.table_size pos

/-- `values(None)` (`src/double_key_table.py` lines 259-264): concatenate
the inner `values()` of every occupied outer slot, in slot order. -/
def valuesAll (t : DoubleKeyTable V) : List V :=
  (t.array.filterMap (fun s => s.map Prod.snd)).foldr
    (fun inner acc => inner.values ++ acc) []

/-- The scan of `values(k)` for a present key argument
(`src/double_key_table.py` lines 266-271), with the same `TypeError` and
fall-through behaviour as the `keys(k)` scan. -/
def valuesScopedAux (t : DoubleKeyTable V) (k : Key) :
    Nat → Nat → Except Err (Option (List V))
  | 0, _ => .ok none
  | fuel+1, pos =>
    match t.array.get? pos with
    | none => .error .indexError
    | some none => .error .typeError
    | some (some (k', inner)) =>
      if k' = k then .ok (some inner.values)
      else t.valuesScopedAux k fuel ((pos + 1) % t.table_size)

/-- `values(k)` with a key argument (`src/double_key_table.py` lines
265-271). -/
def valuesScoped (t : DoubleKeyTable V) (k : Key) : Except Err (Option (List V)) :=
  match t.hash1 k with
  | .error e => .error e
  | .ok pos => t.valuesScopedAux k t.table_size pos

/-- `__len__` (`src/double_key_table.py` lines 395-404): the length of
`values()`, i.e. the total number of stored pairs. -/
def length (t : DoubleKeyTable V) : Nat := t.valuesAll.length

end DoubleKeyTable

/-- `__init__` (`src/double_key_table.py` lines 28-70): install the outer
schedule (defaulting to `TABLE_SIZES`), the inner schedule (defaulting to
the outer one), zero the count and size index, and allocate the initial
array at the schedule's first capacity (`IndexError` on an empty
schedule). -/
def mkDKT (V : Type) (sizes internal_sizes : Option (List Nat)) :
    Except Err (DoubleKeyTable V) :=
  let ts := sizes.getD TABLE_SIZES_DEFAULT
  let its := internal_sizes.getD ts
  match ts.get? 0 with
  | none => .error .indexError
  | some cap =>
    .ok { TABLE_SIZES := ts, INTERNAL_TABLE_SIZES := its, count := 0,
          size_index := 0, array := List.replicate cap none }

instance {ε α : Type} [DecidableEq ε] [DecidableEq α] : DecidableEq (Except ε α) := by
  intro a b
  cases a <;> cases b
  case error.error e e' => exact decidable_of_iff (e = e') (by simp)
  case error.ok e a' => exact .isFalse (by simp)
  case ok.error a' e => exact .isFalse (by simp)
  case ok.ok a' b' => exact decidable_of_iff (a' = b') (by simp)

/-- A fresh table built with the schedule `[5, 13]` (both levels), i.e. the
result of `DoubleKeyTable(sizes=[5,13])`. -/
def emptyT : DoubleKeyTable Nat :=
  { TABLE_SIZES := [5, 13], INTERNAL_TABLE_SIZES := [5, 13], count := 0,
    size_index := 0, array := List.replicate 5 none }

/-- A fresh empty inner store at capacity 5 with schedule `[5, 13]`. -/
def emptyInner : LinearProbeTable Nat :=
  { sizes := [5, 13], size_index := 0, array := List.replicate 5 none, count := 0 }

/-- A fresh table built with the schedule `[1, 2]`, the spec's exhaustion
scenario (`DoubleKeyTable(sizes=[1,2])`). -/
def exhaustTable (V : Type) : DoubleKeyTable V :=
  { TABLE_SIZES := [1, 2], INTERNAL_TABLE_SIZES := [1, 2], count := 0,
    size_index := 0, array := [none] }

/-- A fresh table built with the schedule `[5, 13, 29]`. -/
def growT0 : DoubleKeyTable Nat :=
  { TABLE_SIZES := [5, 13, 29], INTERNAL_TABLE_SIZES := [5, 13, 29], count := 0,
    size_index := 0, array := List.replicate 5 none }

/-- `growT0` after `set("o","x",1)` (key codes: "o" = 111, "x" = 120). -/
def growT1 : DoubleKeyTable Nat := (growT0.setItem [111] [120] 1).1

/-- `growT1` after `set("b","x",2)` ("b" = 98). -/
def growT2 : DoubleKeyTable Nat := (growT1.setItem [98] [120] 2).1

/-- `growT2` after `set("a","x",3)` ("a" = 97): the third distinct primary
key pushes `count` to 3 > 5/2, triggering the outer rehash to capacity
13, where "o" (111 mod 13 = 7) and "b" (98 mod 13 = 7) collide. -/
def growT3 : DoubleKeyTable Nat := (growT2.setItem [97] [120] 3).1

/-- `emptyT` after `set("b","x",1)`. -/
def ovT1 : DoubleKeyTable Nat := (emptyT.setItem [98] [120] 1).1

/-- `ovT1` after `set("a","x",2)`. -/
def ovT2 : DoubleKeyTable Nat := (ovT1.setItem [97] [120] 2).1

/-- `ovT2` after `set("o","x",10)`: the insert of "o" triggers the outer
rehash to capacity 13, where "b" clobbers "o"'s slot. -/
def ovT3 : DoubleKeyTable Nat := (ovT2.setItem [111] [120] 10).1

/-- `ovT3` after `set("o","x",20)`: "o" is re-created in a fresh slot. -/
def ovT4 : DoubleKeyTable Nat := (ovT3.setItem [111] [120] 20).1

/-- `emptyT` after `set("a","x",1)` ("a" = 97 hashes to outer slot 2). -/
def chainT1 : DoubleKeyTable Nat := (emptyT.setItem [97] [120] 1).1

/-- `chainT1` after `set("f","x",2)` ("f" = 102 also hashes to outer slot
2 and probes on to slot 3). -/
def chainT2 : DoubleKeyTable Nat := (chainT1.setItem [102] [120] 2).1

/-- `chainT2` after `delete("a","x")`: slot 2 is physically cleared, which
breaks the probe chain leading to "f" in slot 3. -/
def chainT3 : DoubleKeyTable Nat := (chainT2.delItem [97] [120]).1

/-- An inner store holding exactly the pair ("x", 1). -/
def innerW : LinearProbeTable Nat :=
  { sizes := [5, 13], size_index := 0,
    array := [some ([120], 1), none, none, none, none], count := 1 }

/-- A table holding exactly the triple ("a","x",1) in outer slot 2. -/
def tW : DoubleKeyTable Nat :=
  { TABLE_SIZES := [5, 13], INTERNAL_TABLE_SIZES := [5, 13], count := 1,
    size_index := 0, array := [none, none, some ([97], innerW), none, none] }

/-- C1: the claim states that crossing the 50% load factor triggers an
outer grow that re-inserts every entry with full linear-probe collision
resolution, losing nothing.  In the code, `_rehash` copies each occupied
slot to `hash1(key)` by direct address assignment without probing
(`src/double_key_table.py` lines 377-381): with schedule `[5,13,29]`,
after inserting ("o","x",1), ("b","x",2) and ("a","x",3), the third
insert grows the outer table to capacity 13, where "o" and "b" both hash
to slot 7 and "b" overwrites "o" — the previously inserted triple
("o","x",1) is lost (enumeration shrinks from 3 pairs to 2 and the get
fails). -/
theorem rehash_direct_copy_loses_entry :
    mkDKT Nat (some [5, 13, 29]) none = .ok growT0 ∧
    (growT0.setItem [111] [120] 1).2 = .ok () ∧
    (growT1.setItem [98] [120] 2).2 = .ok () ∧
    (growT2.getItem [111] [120]).2 = .ok (some 1) ∧
    growT2.length = 2 ∧
    (growT2.setItem [97] [120] 3).2 = .ok () ∧
    growT3.table_size = 13 ∧
    growT3.size_index = 1 ∧
    (growT3.getItem [111] [120]).2 = .error .keyError ∧
    growT3.keysAll = [[97], [98]] ∧
    growT3.length = 2 := by
  refine ⟨rfl, rfl, rfl, rfl, rfl, rfl, rfl, rfl, rfl, rfl, rfl⟩

/-- C2: the claim states that `get` on an absent pair fails with NotFound
and leaves the structure exactly in its prior state.  `__getitem__` probes
with `is_insert=True` (`src/double_key_table.py` line 312), so on a fresh
table `get("a","x")` does raise `KeyError`, but only after allocating a
new outer slot holding an empty inner store and incrementing the outer
occupied count from 0 to 1. -/
theorem get_absent_mutates_state :
    mkDKT Nat (some [5, 13]) none = .ok emptyT ∧
    emptyT.count = 0 ∧
    emptyT.keysAll = [] ∧
    (emptyT.getItem [97] [120]).2 = .error .keyError ∧
    (emptyT.getItem [97] [120]).1.count = 1 ∧
    (emptyT.getItem [97] [120]).1.keysAll = [[97]] := by
  refine ⟨rfl, rfl, rfl, rfl, rfl, rfl⟩

/-- C3: the claim states the invariant that in every reachable state each
occupied outer slot owns a non-empty inner store.  A single
`contains("b","x")` on a fresh table — an operation from the claim's own
list — leaves outer slot 3 occupied by ("b", inner store) with the inner
store empty (`len = 0`, no keys), because `contains` is built on the
mutating `__getitem__`. -/
theorem contains_absent_creates_empty_inner :
    mkDKT Nat (some [5, 13]) none = .ok emptyT ∧
    (emptyT.containsPair [98] [120]).2 = .ok false ∧
    (emptyT.containsPair [98] [120]).1.array.get? 3 = some (some ([98], emptyInner)) ∧
    emptyInner.len = 0 ∧
    emptyInner.keys = [] := by
  refine ⟨rfl, rfl, rfl, rfl, rfl⟩

/-- C4: the claim states that with schedule `[1, 2]` inserting three
distinct primary keys fails with CapacityExhausted (`FullError`).  In the
code the very first insert crashes with an unguarded `ZeroDivisionError`
inside `hash1` — at capacity 1 the multiplier update reduces modulo
`table_size - 1 = 0` (`src/double_key_table.py` line 82) — so no insert
ever reaches the probe loop and `FullError` is never signalled. -/
theorem schedule_one_two_first_insert_zero_div :
    mkDKT Nat (some [1, 2]) none = .ok (exhaustTable Nat) ∧
    (exhaustTable Nat).setItem [97] [120] 1 =
      (exhaustTable Nat, .error .zeroDivisionError) ∧
    (exhaustTable Nat).setItem [97] [120] 1 ≠
      (exhaustTable Nat, .error .fullError) := by
  refine ⟨rfl, rfl, by decide⟩

/-- C5: the claim states that `keys(k1)` and `values(k1)` for an absent
primary key fail with NotFound and never crash with a null-dereference
error.  In the code the scan subscripts `self.array[position][0]` without
a `None` check (`src/double_key_table.py` line 215): on a fresh table
`keys("a")` hits the empty slot at position 2 and raises `TypeError`
(subscripting `None`), and `values("a")` does the same. -/
theorem keys_scoped_absent_type_error :
    mkDKT Nat (some [5, 13]) none = .ok emptyT ∧
    emptyT.keysScoped [97] = .error .typeError ∧
    emptyT.valuesScoped [97] = .error .typeError := by
  refine ⟨rfl, rfl, rfl⟩

/-- C6: the claim states that for every table state, `set(k1,k2,v)`
immediately followed by `get(k1,k2)` returns `v`.  Starting from the state
holding ("b","x",1) and ("a","x",2) under schedule `[5,13]`, the set of
("o","x",10) triggers the outer rehash whose direct-address copy lets "b"
clobber "o"'s new slot, so the immediately following `get("o","x")`
raises `KeyError` instead of returning 10. -/
theorem set_then_get_fails_after_clobbering_rehash :
    mkDKT Nat (some [5, 13]) none = .ok emptyT ∧
    (emptyT.setItem [98] [120] 1).2 = .ok () ∧
    (ovT1.setItem [97] [120] 2).2 = .ok () ∧
    (ovT2.setItem [111] [120] 10).2 = .ok () ∧
    ((ovT2.setItem [111] [120] 10).1.getItem [111] [120]).2 = .error .keyError ∧
    ((ovT2.setItem [111] [120] 10).1.getItem [111] [120]).2 ≠ .ok (some 10) := by
  refine ⟨rfl, rfl, rfl, rfl, rfl, by decide⟩

/-- C7: the claim states that setting the same pair twice keeps the latest
value and leaves the total pair count equal to the count after the first
set alone.  After the first `set("o","x",10)` (which triggers the
clobbering rehash and loses the pair), the table holds 2 pairs; the second
`set("o","x",20)` re-creates the pair in a fresh slot, and `len()`
becomes 3 — the last-written value is returned but the total length
differs from the length after the first set alone. -/
theorem overwrite_after_rehash_changes_length :
    (ovT3.setItem [111] [120] 20).2 = .ok () ∧
    (ovT4.getItem [111] [120]).2 = .ok (some 20) ∧
    ovT3.length = 2 ∧
    ovT4.length = 3 := by
  refine ⟨rfl, rfl, rfl, rfl⟩

/-- C9: the claim states that the outer occupied count always equals the
number of occupied outer slots, including across grows.  `_rehash` resets
`count` to 0 and never increments it while re-inserting
(`src/double_key_table.py` lines 376-381): after the grow triggered by the
third insert, two outer slots are occupied but `count = 0`. -/
theorem count_zero_after_rehash_with_occupied_slots :
    mkDKT Nat (some [5, 13, 29]) none = .ok growT0 ∧
    (growT0.setItem [111] [120] 1).2 = .ok () ∧
    (growT1.setItem [98] [120] 2).2 = .ok () ∧
    (growT2.setItem [97] [120] 3).2 = .ok () ∧
    growT3.count = 0 ∧
    growT3.keysAll.length = 2 := by
  refine ⟨rfl, rfl, rfl, rfl, rfl, rfl⟩

/-- C8 counterexample: the claim quantifies over every table state in
which (k1,k2) is the only pair under k1.  Deletion physically clears slots
without repairing probe chains: after inserting ("a","x",1) (slot 2) and
("f","x",2) ("f" also hashes to 2, probing to slot 3) and deleting
("a","x"), the pair ("f","x",2) is still stored and is the only pair
under "f", yet `delete("f","x")` fails with `KeyError` because the probe
for "f" stops at the now-empty slot 2 — the claimed deletion does not
succeed. -/
theorem delete_only_pair_broken_chain_fails :
    mkDKT Nat (some [5, 13]) none = .ok emptyT ∧
    (emptyT.setItem [97] [120] 1).2 = .ok () ∧
    (chainT1.setItem [102] [120] 2).2 = .ok () ∧
    (chainT2.delItem [97] [120]).2 = .ok () ∧
    chainT3.keysAll = [[102]] ∧
    chainT3.valuesAll = [2] ∧
    (chainT3.delItem [102] [120]).2 = .error .keyError ∧
    (chainT3.delItem [102] [120]).1 = chainT3 := by
  refine ⟨rfl, rfl, rfl, rfl, rfl, rfl, rfl, rfl⟩

theorem rollHash_one_eq {k : Key} (hk : k ≠ []) :
    rollHash 1 k = .error .zeroDivisionError := by
  match k, hk with
  | c :: cs, _ => rfl

/-- C10: for every key with at least one symbol, `hash1` on a table of
capacity 1 raises an unguarded `ZeroDivisionError` (the multiplier update
reduces modulo `table_size - 1 = 0`, `src/double_key_table.py` line 82);
consequently every keyed operation on the fresh table built with the
spec's exhaustion schedule `[1, 2]` — set, get, delete, contains and the
scoped enumerations — crashes with `ZeroDivisionError` before any probe
occurs, leaving the table unchanged. -/
theorem hash1_capacity_one_total_crash {V : Type} (t : DoubleKeyTable V)
    (k k2 : Key) (v : V) (hcap : t.table_size = 1) (hk : k ≠ []) :
    t.hash1 k = .error .zeroDivisionError ∧
    mkDKT V (some [1, 2]) none = .ok (exhaustTable V) ∧
    (exhaustTable V).table_size = 1 ∧
    (exhaustTable V).setItem k k2 v = (exhaustTable V, .error .zeroDivisionError) ∧
    (exhaustTable V).getItem k k2 = (exhaustTable V, .error .zeroDivisionError) ∧
    (exhaustTable V).delItem k k2 = (exhaustTable V, .error .zeroDivisionError) ∧
    (exhaustTable V).containsPair k k2 = (exhaustTable V, .error .zeroDivisionError) ∧
    (exhaustTable V).keysScoped k = .error .zeroDivisionError ∧
    (exhaustTable V).valuesScoped k = .error .zeroDivisionError := by
  have h1 : rollHash 1 k = .error .zeroDivisionError := rollHash_one_eq hk
  have hhash : ∀ (s : DoubleKeyTable V), s.table_size = 1 →
      s.hash1 k = .error .zeroDivisionError := by
    intro s hs
    rw [DoubleKeyTable.hash1, hs, h1]
  have hex : (exhaustTable V).table_size = 1 := rfl
  have hprobe : ∀ isInsert, (exhaustTable V).linear_probe k k2 isInsert =
      (exhaustTable V, .error .zeroDivisionError) := by
    intro isInsert
    rw [DoubleKeyTable.linear_probe, hhash (exhaustTable V) hex]
  refine ⟨hhash t hcap, rfl, hex, ?_, ?_, ?_, ?_, ?_, ?_⟩
  · rw [DoubleKeyTable.setItem, hprobe]
  · rw [DoubleKeyTable.getItem, hprobe]
  · rw [DoubleKeyTable.delItem, hprobe]
  · rw [DoubleKeyTable.containsPair, DoubleKeyTable.getItem, hprobe]
  · rw [DoubleKeyTable.keysScoped, hhash (exhaustTable V) hex]
  · rw [DoubleKeyTable.valuesScoped, hhash (exhaustTable V) hex]

/-- C10 witness: the crash theorem applied at the concrete key "a" with
second key "x" and value 0 on the `[1, 2]` table itself. -/
theorem hash1_capacity_one_total_crash_witness :
    (exhaustTable Nat).hash1 [97] = .error .zeroDivisionError ∧
    mkDKT Nat (some [1, 2]) none = .ok (exhaustTable Nat) ∧
    (exhaustTable Nat).table_size = 1 ∧
    (exhaustTable Nat).setItem [97] [120] 0 =
      (exhaustTable Nat, .error .zeroDivisionError) ∧
    (exhaustTable Nat).getItem [97] [120] =
      (exhaustTable Nat, .error .zeroDivisionError) ∧
    (exhaustTable Nat).delItem [97] [120] =
      (exhaustTable Nat, .error .zeroDivisionError) ∧
    (exhaustTable Nat).containsPair [97] [120] =
      (exhaustTable Nat, .error .zeroDivisionError) ∧
    (exhaustTable Nat).keysScoped [97] = .error .zeroDivisionError ∧
    (exhaustTable Nat).valuesScoped [97] = .error .zeroDivisionError :=
  hash1_capacity_one_total_crash (exhaustTable Nat) [97] [120] 0 rfl (by decide)

theorem probeAux_false_fst {V : Type} (k1 k2 : Key) :
    ∀ (fuel : Nat) (t : DoubleKeyTable V) (pos : Nat),
      (DoubleKeyTable.probeAux k1 k2 false fuel t pos).1 = t := by
  intro fuel
  induction fuel with
  | zero => intro t pos; rfl
  | succ f ih =>
    intro t pos
    simp only [DoubleKeyTable.probeAux]
    split
    · rfl
    · rfl
    · split
      · split <;> rfl
      · exact ih t _

theorem probeAux_false_ok {V : Type} (k1 k2 : Key) :
    ∀ (fuel : Nat) (t : DoubleKeyTable V) (pos p1 p2 : Nat),
      (DoubleKeyTable.probeAux k1 k2 false fuel t pos).2 = .ok (p1, p2) →
      ∃ inner, t.array.get? p1 = some (some (k1, inner)) ∧
        inner.probe k2 false = .ok p2 := by
  intro fuel
  induction fuel with
  | zero =>
    intro t pos p1 p2 h
    simp only [DoubleKeyTable.probeAux] at h
    cases h
  | succ f ih =>
    intro t pos p1 p2 h
    simp only [DoubleKeyTable.probeAux] at h
    split at h
    · cases h
    · cases h
    · rename_i k inner heq
      split at h
      · rename_i hk
        subst hk
        split at h
        · cases h
        · rename_i q hq
          have h2 : (Except.ok (pos, q) : Except Err (Nat × Nat)) = .ok (p1, p2) := h
          injection h2 with h3
          injection h3 with hpos hq2
          subst hpos
          exact ⟨inner, heq, hq2 ▸ hq⟩
      · exact ih t _ p1 p2 h

theorem foldlM_rollHashStep_ok {cap : Nat} (hcap : 2 ≤ cap) (k : Key) :
    ∀ st : Nat × Nat, st.1 < cap →
      ∃ st', k.foldlM (rollHashStep cap) st = .ok st' ∧ st'.1 < cap := by
  induction k with
  | nil =>
    intro st h
    exact ⟨st, by simp [List.foldlM_nil]; rfl, h⟩
  | cons c cs ih =>
    intro st h
    have h0 : ¬ cap = 0 := by omega
    have h1 : ¬ cap = 1 := by omega
    obtain ⟨st', hst', hlt⟩ :=
      ih ((c + st.2 * st.1) % cap, st.2 * HASH_BASE % (cap - 1))
        (Nat.mod_lt _ (by omega))
    refine ⟨st', ?_, hlt⟩
    rw [List.foldlM_cons]
    have hstep : rollHashStep cap st c =
        .ok ((c + st.2 * st.1) % cap, st.2 * HASH_BASE % (cap - 1)) := by
      rw [rollHashStep, if_neg h0, if_neg h1]
    rw [hstep]
    exact hst'

theorem rollHash_ok_lt {cap : Nat} (hcap : 2 ≤ cap) (k : Key) :
    ∃ q, rollHash cap k = .ok q ∧ q < cap := by
  obtain ⟨st', h, hlt⟩ := foldlM_rollHashStep_ok hcap k (0, 31415) (by omega)
  refine ⟨st'.1, ?_, hlt⟩
  rw [rollHash, h]
  rfl

theorem get_fresh_empty {V : Type} (cap : Nat) (rest : List Nat)
    (hcap : 2 ≤ cap) (k : Key) :
    (freshInner V cap rest).get k = .error .keyError := by
  obtain ⟨q, hq, hlt⟩ := rollHash_ok_lt hcap k
  have hsize : (freshInner V cap rest).table_size = cap := by
    simp [freshInner, LinearProbeTable.table_size]
  obtain ⟨f, hf⟩ : ∃ f, cap = f + 1 := ⟨cap - 1, by omega⟩
  have hget : (freshInner V cap rest).array.get? q = some none := by
    rw [freshInner, List.get?_eq_getElem?, List.getElem?_replicate, if_pos hlt]
  rw [LinearProbeTable.get, LinearProbeTable.probe, hsize, hq]
  rw [hf]
  simp only [LinearProbeTable.probeAux]
  rw [← hf, hget]
  simp

theorem probeAux_after_clear {V : Type} (k1 k2 k2' : Key)
    (fresh : LinearProbeTable V) (q : Nat) :
    ∀ (fuel : Nat) (t u : DoubleKeyTable V) (pos p1 p2 : Nat),
      (DoubleKeyTable.probeAux k1 k2 false fuel t pos).2 = .ok (p1, p2) →
      u.array = t.array.set p1 none →
      u.INTERNAL_TABLE_SIZES = t.INTERNAL_TABLE_SIZES →
      mkLPT V t.INTERNAL_TABLE_SIZES = .ok fresh →
      rollHash fresh.table_size k2' = .ok q →
      DoubleKeyTable.probeAux k1 k2' true fuel u pos =
        ({ u with array := u.array.set p1 (some (k1, fresh)),
                  count := u.count + 1 }, .ok (p1, q)) := by
  intro fuel
  induction fuel with
  | zero => intro t u pos p1 p2 h _ _ _ _; cases h
  | succ f ih =>
    intro t u pos p1 p2 h huarr huint hmk hq
    obtain ⟨innerMatch, hslotp1, _⟩ := probeAux_false_ok k1 k2 (f+1) t pos p1 p2 h
    have hp1len : p1 < t.array.length := (List.get?_eq_some.mp hslotp1).1
    simp only [DoubleKeyTable.probeAux] at h
    split at h
    · cases h
    · cases h
    · rename_i k inner heq
      by_cases hk : k = k1
      · subst hk
        rw [if_pos rfl] at h
        split at h
        · cases h
        · rename_i q' hq'
          have h2 : (Except.ok (pos, q') : Except Err (Nat × Nat)) = .ok (p1, p2) := h
          injection h2 with h3
          injection h3 with hpos hq2
          subst hpos
          have hclear : u.array.get? pos = some none := by
            rw [huarr]
            exact List.get?_set_eq_of_lt none hp1len
          simp only [DoubleKeyTable.probeAux, hclear, huint, hmk,
            DoubleKeyTable.hash2, hq]
          simp
      · rw [if_neg hk] at h
        have hposne : pos ≠ p1 := by
          intro hcontra
          subst hcontra
          rw [heq] at hslotp1
          injection hslotp1 with h4
          injection h4 with h5
          exact hk (congrArg Prod.fst h5)
        have huslot : u.array.get? pos = some (some (k, inner)) := by
          rw [huarr, List.get?_set_ne none t.array (Ne.symm hposne)]
          exact heq
        have htsz : u.table_size = t.table_size := by
          simp [DoubleKeyTable.table_size, huarr]
        simp only [DoubleKeyTable.probeAux, huslot, if_neg hk, htsz]
        exact ih t u ((pos + 1) % t.table_size) p1 p2 h huarr huint hmk hq

/-- C8 (amended): for every table state in which the outer lookup probe
for (k1,k2) succeeds — i.e. the probe chain for k1 is intact and the pair
is reachable — the probed slot's inner store holds exactly one pair, k1
occupies no other outer slot, and the inner capacity schedule starts at 2
or more, `delete(k1,k2)` succeeds, the outer occupied count decreases by
exactly one, `keys()` no longer contains k1, and `contains(k1,k2)`
afterwards returns `false`.  (The unamended claim, quantified over every
state in which (k1,k2) is the only pair stored under k1, fails on probe
chains broken by earlier deletions; see the counterexample.) -/
theorem delete_cleanup_reachable_slot {V : Type} (t : DoubleKeyTable V)
    (k1 k2 : Key) (p1 p2 : Nat) (inner : LinearProbeTable V)
    (hprobe : t.linear_probe k1 k2 false = (t, .ok (p1, p2)))
    (hslot : t.array.get? p1 = some (some (k1, inner)))
    (hone : inner.count = 1)
    (huniq : ∀ (j : Nat) (k' : Key) (inn' : LinearProbeTable V),
      j ≠ p1 → t.array.get? j = some (some (k', inn')) → k' ≠ k1)
    (hinternal : 2 ≤ t.INTERNAL_TABLE_SIZES.headD 0) :
    (t.delItem k1 k2).2 = .ok () ∧
    (t.delItem k1 k2).1.count = t.count - 1 ∧
    k1 ∉ (t.delItem k1 k2).1.keysAll ∧
    ((t.delItem k1 k2).1.containsPair k1 k2).2 = .ok false := by
  have hp1len : p1 < t.array.length := (List.get?_eq_some.mp hslot).1
  have hlp := hprobe
  rw [DoubleKeyTable.linear_probe] at hprobe
  cases hh1 : t.hash1 k1 with
  | error e => simp only [hh1] at hprobe; simp at hprobe
  | ok pos0 =>
  cases hb : t.TABLE_SIZES.get? t.size_index with
  | none => simp only [hh1, hb] at hprobe; simp at hprobe
  | some bound =>
  simp only [hh1, hb] at hprobe
  have hA2 : (DoubleKeyTable.probeAux k1 k2 false bound t pos0).2 = .ok (p1, p2) := by
    rw [hprobe]
  obtain ⟨inner0, hslot0, hpinner⟩ := probeAux_false_ok k1 k2 bound t pos0 p1 p2 hA2
  rw [hslot] at hslot0
  injection hslot0 with h4
  injection h4 with h5
  have hinner0 : inner = inner0 := congrArg Prod.snd h5
  rw [← hinner0] at hpinner
  have hdelInner : inner.delete k2 =
      .ok { inner with array := inner.array.set p2 none,
                       count := inner.count - 1 } := by
    rw [LinearProbeTable.delete, hpinner]
  have hDel : t.delItem k1 k2 =
      ({ t with array := t.array.set p1 none, count := t.count - 1 }, .ok ()) := by
    simp only [DoubleKeyTable.delItem, hlp, hslot, hdelInner]
    simp [hone]
  refine ⟨by rw [hDel], by rw [hDel], ?_, ?_⟩
  · rw [hDel]
    intro hmem
    simp only [DoubleKeyTable.keysAll] at hmem
    rw [List.mem_filterMap] at hmem
    obtain ⟨s, hsmem, hsmap⟩ := hmem
    cases s with
    | none => simp at hsmap
    | some pr =>
      obtain ⟨kk, innk⟩ := pr
      simp at hsmap
      subst hsmap
      obtain ⟨j, hj⟩ := List.mem_iff_get?.mp hsmem
      by_cases hjp : j = p1
      · subst hjp
        rw [List.get?_set_eq_of_lt none hp1len] at hj
        simp at hj
      · rw [List.get?_set_ne none t.array (Ne.symm hjp)] at hj
        exact huniq j kk innk hjp hj rfl
  · rw [hDel]
    cases hits : t.INTERNAL_TABLE_SIZES with
    | nil => rw [hits] at hinternal; simp at hinternal
    | cons cap rest =>
    have hcap : 2 ≤ cap := by rw [hits] at hinternal; simpa using hinternal
    have hmk : mkLPT V t.INTERNAL_TABLE_SIZES = .ok (freshInner V cap rest) := by
      rw [hits]
      rfl
    have hfreshsize : (freshInner V cap rest).table_size = cap := by
      simp [freshInner, LinearProbeTable.table_size]
    obtain ⟨q, hq, hqlt⟩ := rollHash_ok_lt hcap k2
    have hq' : rollHash (freshInner V cap rest).table_size k2 = .ok q := by
      rw [hfreshsize]; exact hq
    have hwalk := probeAux_after_clear k1 k2 k2 (freshInner V cap rest) q bound t
      { t with array := t.array.set p1 none, count := t.count - 1 }
      pos0 p1 p2 hA2 rfl rfl hmk hq'
    have htsz : ({ t with array := t.array.set p1 none, count := t.count - 1 } :
        DoubleKeyTable V).table_size = t.table_size := by
      simp [DoubleKeyTable.table_size]
    have hh1' : ({ t with array := t.array.set p1 none, count := t.count - 1 } :
        DoubleKeyTable V).hash1 k1 = .ok pos0 := by
      rw [DoubleKeyTable.hash1, htsz]
      rw [DoubleKeyTable.hash1] at hh1
      exact hh1
    have hslotIns : ((t.array.set p1 none).set p1
        (some (k1, freshInner V cap rest))).get? p1 =
        some (some (k1, freshInner V cap rest)) := by
      exact List.get?_set_eq_of_lt _ (by simpa using hp1len)
    have hfreshget : (freshInner V cap rest).get k2 = .error .keyError :=
      get_fresh_empty cap rest hcap k2
    rw [hits] at hh1' hwalk
    simp only [DoubleKeyTable.containsPair, DoubleKeyTable.getItem,
      DoubleKeyTable.linear_probe, hh1', hb, hwalk, hslotIns, hfreshget]

/-- C8 witness: the amended deletion-cleanup theorem applied to the
concrete table holding exactly ("a","x",1) in outer slot 2, whose probe
for ("a","x") succeeds at positions (2, 0). -/
theorem delete_cleanup_reachable_slot_witness :
    (tW.delItem [97] [120]).2 = .ok () ∧
    (tW.delItem [97] [120]).1.count = tW.count - 1 ∧
    [97] ∉ (tW.delItem [97] [120]).1.keysAll ∧
    ((tW.delItem [97] [120]).1.containsPair [97] [120]).2 = .ok false :=
  delete_cleanup_reachable_slot tW [97] [120] 2 0 innerW rfl rfl rfl
    (by
      intro j k' inn' hj hget
      obtain ⟨hlt, -⟩ := List.get?_eq_some.mp hget
      have hlt5 : j < 5 := by simpa [tW] using hlt
      interval_cases j <;> simp [tW, innerW] at hget hj)
    (by decide)

end MountainTrail
